import Mathlib

/-!
# Verification of the lazynwb tabular-access core

Shallow embedding of the core of the `lazynwb` library:

* the ragged column codec (`get_indexed_column_data`, tables.py),
* the table-path resolver with its `difflib.get_close_matches` fuzzy matching
  (`_get_table_data`, tables.py; `difflib`, Python standard library),
* the single-file table materializer (`_get_table_data`, tables.py),
* the multi-file aggregator (`get_df`, tables.py),
* the accessor cache (`FileAccessor.__new__` / `__init__` / `clear_cache`, file_io.py),
* the predicate branch of the lazy scan engine (`source_generator`, lazyframe.py).

Python dicts are modelled as insertion-ordered association lists, numpy arrays as
`List`, machine integers as `Nat` (all offsets involved are non-negative cumulative
end-offsets), and raised exceptions as `Except` with an error type distinguishing
the exception classes used by the source (`KeyError`, `ValueError`, `StopIteration`,
`AttributeError`).
-/

namespace LazyNWB

/-! ## Ragged column codec (tables.py, `get_indexed_column_data`) -/

/-- Python `range(a, b)` over naturals: `[a, a+1, ..., b-1]`, empty when `b ≤ a`. -/
def rangeList (a b : Nat) : List Nat := List.range' a (b - a)

/-- `index_array` in `get_indexed_column_data`: the index column prepended with 0
(`np.concatenate(([0], index_column_accessor[:]))`), looked up at position `i`.
`cumulativeIndex index i` is the start offset of row `i`; `cumulativeIndex index (i+1)`
is its end offset. -/
def cumulativeIndex (index : List Nat) (i : Nat) : Nat :=
  (0 :: index).getD i 0

/-- `data_indices` in `get_indexed_column_data`: for every requested row `i`, the
positions `range(index_array[i], index_array[i+1])` in the flat data buffer, concatenated
in requested-row order.  These are exactly the element positions read from the data
accessor by the single fancy-indexed read `data_column_accessor[data_indices]`. -/
def raggedDataIndices (index : List Nat) (rows : List Nat) : List Nat :=
  rows.flatMap fun i => rangeList (cumulativeIndex index i) (cumulativeIndex index (i + 1))

/-- The re-splitting loop at the end of `get_indexed_column_data`:
`start_idx = 0; for run_length in diffs: column_data.append(data_array[start_idx:start_idx+run_length]); ...`. -/
def splitByRunLengths {α : Type} (xs : List α) : List Nat → List (List α)
  | [] => []
  | l :: ls => xs.take l :: splitByRunLengths (xs.drop l) ls

/-- `get_indexed_column_data(data_column_accessor, index_column_accessor, table_row_indices)`
(tables.py lines 379-425).  `data` is the flat data buffer, `index` the parallel index
column of cumulative end-offsets (row 0 implicitly starts at 0).  When
`table_row_indices is None` every row `range(len(index_array) - 1)` is requested.
The run lengths are `np.diff(index_array)[table_row_indices]`. -/
def get_indexed_column_data {α : Type} [Inhabited α]
    (data : List α) (index : List Nat) (table_row_indices : Option (List Nat)) :
    List (List α) :=
  let rows := table_row_indices.getD (List.range index.length)
  let data_array : List α := (raggedDataIndices index rows).map fun j => data.getD j default
  splitByRunLengths data_array
    (rows.map fun i => cumulativeIndex index (i + 1) - cumulativeIndex index i)

/-! ### Lemmas about the ragged codec -/

/-- Fancy-indexing a contiguous range of positions reads the corresponding slice. -/
theorem map_getD_range' {α : Type} [Inhabited α] (data : List α) :
    ∀ (k s : Nat), s + k ≤ data.length →
      (List.range' s k).map (fun j => data.getD j default) = (data.drop s).take k := by
  intro k
  induction k with
  | zero => intro s _; simp
  | succ n ih =>
    intro s h
    have hs : s < data.length := by omega
    rw [List.range'_succ, List.map_cons, ih (s + 1) (by omega),
      List.drop_eq_getElem_cons hs, List.take_succ_cons,
      List.getD_eq_getElem data default hs]

/-- Splitting a concatenation of segments at the segments' lengths recovers the segments. -/
theorem splitByRunLengths_flatten {α : Type} (segs : List (List α)) :
    splitByRunLengths segs.flatten (segs.map List.length) = segs := by
  induction segs with
  | nil => rfl
  | cons a rest ih =>
    simp only [List.flatten_cons, List.map_cons, splitByRunLengths,
      List.take_left, List.drop_left, ih]

theorem cumulativeIndex_le_next (index : List Nat)
    (hmono : List.Chain' (· ≤ ·) (0 :: index)) :
    ∀ i, i < index.length → cumulativeIndex index i ≤ cumulativeIndex index (i + 1) := by
  intro i hi
  have hlen : i < (0 :: index).length - 1 := by simp; omega
  have h := List.chain'_iff_get.mp hmono i hlen
  unfold cumulativeIndex
  rw [List.getD_eq_getElem _ _ (by simp; omega), List.getD_eq_getElem _ _ (by simp; omega)]
  simpa using h

theorem cumulativeIndex_mono (index : List Nat)
    (hmono : List.Chain' (· ≤ ·) (0 :: index)) :
    ∀ d i, i + d ≤ index.length →
      cumulativeIndex index i ≤ cumulativeIndex index (i + d) := by
  intro d
  induction d with
  | zero => intro i _; exact Nat.le_refl _
  | succ n ih =>
    intro i h
    calc cumulativeIndex index i ≤ cumulativeIndex index (i + n) := ih i (by omega)
      _ ≤ cumulativeIndex index (i + n + 1) :=
          cumulativeIndex_le_next index hmono (i + n) (by omega)

/-- Row end-offsets are bounded by the data length when every index entry is. -/
theorem cumulativeIndex_le_length (index : List Nat) (dlen : Nat)
    (hle : ∀ x ∈ index, x ≤ dlen) :
    ∀ i, i < index.length → cumulativeIndex index (i + 1) ≤ dlen := by
  intro i hi
  have : cumulativeIndex index (i + 1) = index.getD i 0 := rfl
  rw [this, List.getD_eq_getElem _ _ hi]
  exact hle _ (List.getElem_mem hi)

/-- Core structural fact: on a non-decreasing index whose offsets stay within the data
buffer, the codec returns, for each requested row `i` in requested order, exactly the
slice `data[Index[i-1] : Index[i]]`. -/
theorem get_indexed_column_data_eq_map {α : Type} [Inhabited α]
    (data : List α) (index : List Nat)
    (hmono : List.Chain' (· ≤ ·) (0 :: index))
    (hle : ∀ x ∈ index, x ≤ data.length) :
    ∀ rows : List Nat, (∀ i ∈ rows, i < index.length) →
      get_indexed_column_data data index (some rows) =
        rows.map fun i => (data.drop (cumulativeIndex index i)).take
          (cumulativeIndex index (i + 1) - cumulativeIndex index i) := by
  intro rows
  induction rows with
  | nil => intro _; rfl
  | cons r rs ih =>
    intro hrows
    have hr : r < index.length := hrows r (List.mem_cons_self r rs)
    have hrs : ∀ i ∈ rs, i < index.length := fun i hi => hrows i (List.mem_cons_of_mem r hi)
    have hstart := cumulativeIndex_le_next index hmono r hr
    have hend := cumulativeIndex_le_length index data.length hle r hr
    have hlen : ((rangeList (cumulativeIndex index r) (cumulativeIndex index (r + 1))).map
        (fun j => data.getD j default)).length
        = cumulativeIndex index (r + 1) - cumulativeIndex index r := by
      simp [rangeList]
    have hih := ih hrs
    unfold get_indexed_column_data raggedDataIndices at hih ⊢
    simp only [Option.getD_some, List.flatMap_cons, List.map_cons, List.map_append] at hih ⊢
    rw [splitByRunLengths, List.take_left' hlen, List.drop_left' hlen, hih]
    congr 1
    have : cumulativeIndex index r + (cumulativeIndex index (r + 1) - cumulativeIndex index r)
        ≤ data.length := by omega
    rw [show rangeList (cumulativeIndex index r) (cumulativeIndex index (r + 1))
        = List.range' (cumulativeIndex index r)
          (cumulativeIndex index (r + 1) - cumulativeIndex index r) from rfl]
    exact map_getD_range' data _ _ this

/-- Concatenating the per-row slices of consecutive rows `a, a+1, ..., a+m-1` yields the
contiguous slice of `data` from offset `Index[a-1]` to offset `Index[a+m-1]`. -/
theorem flatten_consecutive_slices {α : Type} (data : List α) (index : List Nat)
    (hmono : List.Chain' (· ≤ ·) (0 :: index)) :
    ∀ m a, (∀ i ∈ List.range' a m, i < index.length) →
      ((List.range' a m).map fun i => (data.drop (cumulativeIndex index i)).take
          (cumulativeIndex index (i + 1) - cumulativeIndex index i)).flatten
        = (data.drop (cumulativeIndex index a)).take
            (cumulativeIndex index (a + m) - cumulativeIndex index a) := by
  intro m
  induction m with
  | zero => intro a _; simp
  | succ n ih =>
    intro a hmem
    have ha : a < index.length := hmem a (by rw [List.mem_range'_1]; omega)
    have hlast : a + n < index.length := hmem (a + n) (by rw [List.mem_range'_1]; omega)
    have h1 : cumulativeIndex index a ≤ cumulativeIndex index (a + 1) :=
      cumulativeIndex_le_next index hmono a ha
    have h2 : cumulativeIndex index (a + 1) ≤ cumulativeIndex index (a + 1 + n) :=
      cumulativeIndex_mono index hmono n (a + 1) (by omega)
    rw [List.range'_succ, List.map_cons, List.flatten_cons,
      ih (a + 1) (fun i hi => hmem i (by rw [List.mem_range'_1] at hi ⊢; omega))]
    have hdrop : data.drop (cumulativeIndex index (a + 1))
        = (data.drop (cumulativeIndex index a)).drop
            (cumulativeIndex index (a + 1) - cumulativeIndex index a) := by
      rw [List.drop_drop]
      congr 1
      omega
    rw [hdrop, ← List.take_add]
    have hidx : a + 1 + n = a + (n + 1) := by omega
    rw [hidx] at h2 ⊢
    congr 1
    omega

/-- **C1** (ragged round-trip): for every `(data, index)` pair with a non-decreasing index
of cumulative end-offsets staying within the data buffer, and every subset of rows,
`get_indexed_column_data` returns one sub-array per requested row in requested order;
the sub-array for row `i` is exactly the slice `data[Index[i-1] : Index[i]]` (with
`Index[-1] = 0`), so its length is `Index[i] - (Index[i-1] if i > 0 else 0)`; and for a
set of consecutive rows, concatenating the sub-arrays in index order reproduces the
corresponding contiguous slice of `data` exactly. -/
theorem C1_ragged_round_trip {α : Type} [Inhabited α]
    (data : List α) (index : List Nat) (rows : List Nat)
    (hmono : List.Chain' (· ≤ ·) (0 :: index))
    (hle : ∀ x ∈ index, x ≤ data.length)
    (hrows : ∀ i ∈ rows, i < index.length) :
    (get_indexed_column_data data index (some rows)).length = rows.length
    ∧ (get_indexed_column_data data index (some rows)
        = rows.map fun i => (data.drop (cumulativeIndex index i)).take
            (cumulativeIndex index (i + 1) - cumulativeIndex index i))
    ∧ (∀ k, k < rows.length →
        ((get_indexed_column_data data index (some rows)).getD k []).length
          = cumulativeIndex index (rows.getD k 0 + 1) - cumulativeIndex index (rows.getD k 0))
    ∧ (∀ a m, rows = List.range' a m →
        (get_indexed_column_data data index (some rows)).flatten
          = (data.drop (cumulativeIndex index a)).take
              (cumulativeIndex index (a + m) - cumulativeIndex index a)) := by
  have heq := get_indexed_column_data_eq_map data index hmono hle rows hrows
  refine ⟨by rw [heq]; simp, heq, ?_, ?_⟩
  · intro k hk
    have hk' : k < (rows.map fun i => (data.drop (cumulativeIndex index i)).take
        (cumulativeIndex index (i + 1) - cumulativeIndex index i)).length := by
      simpa using hk
    rw [heq, List.getD_eq_getElem _ _ hk', List.getElem_map,
      List.getD_eq_getElem _ _ hk]
    have hmem : rows[k] ∈ rows := List.getElem_mem hk
    have hi : rows[k] < index.length := hrows _ hmem
    have h1 := cumulativeIndex_le_next index hmono rows[k] hi
    have h2 := cumulativeIndex_le_length index data.length hle rows[k] hi
    simp only [List.length_take, List.length_drop]
    omega
  · intro a m hrm
    rw [heq, hrm]
    exact flatten_consecutive_slices data index hmono m a (hrm ▸ hrows)

/-- Witness for C1 at a concrete input: data buffer of 7 elements, index `[3, 5, 7]`
(rows span `[0:3]`, `[3:5]`, `[5:7]`), requesting rows `[1, 2]`. -/
theorem C1_ragged_round_trip_witness :
    (get_indexed_column_data [10, 20, 30, 40, 50, 60, 70] [3, 5, 7] (some [1, 2])).length
        = [1, 2].length
    ∧ (get_indexed_column_data [10, 20, 30, 40, 50, 60, 70] [3, 5, 7] (some [1, 2])
        = [1, 2].map fun i =>
            (([10, 20, 30, 40, 50, 60, 70] : List Nat).drop (cumulativeIndex [3, 5, 7] i)).take
              (cumulativeIndex [3, 5, 7] (i + 1) - cumulativeIndex [3, 5, 7] i))
    ∧ (∀ k, k < ([1, 2] : List Nat).length →
        ((get_indexed_column_data [10, 20, 30, 40, 50, 60, 70] [3, 5, 7] (some [1, 2])).getD k []).length
          = cumulativeIndex [3, 5, 7] (([1, 2] : List Nat).getD k 0 + 1)
            - cumulativeIndex [3, 5, 7] (([1, 2] : List Nat).getD k 0))
    ∧ (∀ a m, ([1, 2] : List Nat) = List.range' a m →
        (get_indexed_column_data [10, 20, 30, 40, 50, 60, 70] [3, 5, 7] (some [1, 2])).flatten
          = (([10, 20, 30, 40, 50, 60, 70] : List Nat).drop (cumulativeIndex [3, 5, 7] a)).take
              (cumulativeIndex [3, 5, 7] (a + m) - cumulativeIndex [3, 5, 7] a)) :=
  C1_ragged_round_trip [10, 20, 30, 40, 50, 60, 70] [3, 5, 7] [1, 2]
    (by norm_num [List.chain'_cons]) (by norm_num [List.chain'_cons]) (by decide)

/-- **C2** (no-over-read): the element positions read from the data buffer by the codec's
single fancy-indexed read are exactly the union of the requested rows' spans
`[Index[i-1], Index[i])`, and their number is the sum of the requested rows' run lengths
(independent of the total row count). -/
theorem C2_no_over_read (index : List Nat) (rows : List Nat)
    (hmono : List.Chain' (· ≤ ·) (0 :: index))
    (hrows : ∀ i ∈ rows, i < index.length) :
    (∀ j, j ∈ raggedDataIndices index rows ↔
      ∃ i ∈ rows, cumulativeIndex index i ≤ j ∧ j < cumulativeIndex index (i + 1))
    ∧ (raggedDataIndices index rows).length
        = (rows.map fun i => cumulativeIndex index (i + 1) - cumulativeIndex index i).sum := by
  constructor
  · intro j
    unfold raggedDataIndices
    rw [List.mem_flatMap]
    constructor
    · rintro ⟨i, hi, hj⟩
      refine ⟨i, hi, ?_⟩
      have h1 := cumulativeIndex_le_next index hmono i (hrows i hi)
      rw [rangeList, List.mem_range'_1] at hj
      omega
    · rintro ⟨i, hi, hj1, hj2⟩
      refine ⟨i, hi, ?_⟩
      rw [rangeList, List.mem_range'_1]
      omega
  · unfold raggedDataIndices
    rw [List.length_flatMap]
    congr 1
    have : (List.length ∘ fun i =>
        rangeList (cumulativeIndex index i) (cumulativeIndex index (i + 1)))
        = fun i => cumulativeIndex index (i + 1) - cumulativeIndex index i := by
      funext i
      simp [Function.comp, rangeList]
    rw [this]

/-- Witness for C2 at a concrete input: index `[3, 5, 7]` (3 rows), requesting rows
`[0, 2]`: positions read are `{0, 1, 2} ∪ {5, 6}`, 5 = 3 + 2 elements in total. -/
theorem C2_no_over_read_witness :
    (∀ j, j ∈ raggedDataIndices [3, 5, 7] [0, 2] ↔
      ∃ i ∈ ([0, 2] : List Nat), cumulativeIndex [3, 5, 7] i ≤ j
        ∧ j < cumulativeIndex [3, 5, 7] (i + 1))
    ∧ (raggedDataIndices [3, 5, 7] [0, 2]).length
        = (([0, 2] : List Nat).map fun i =>
            cumulativeIndex [3, 5, 7] (i + 1) - cumulativeIndex [3, 5, 7] i).sum :=
  C2_no_over_read [3, 5, 7] [0, 2] (by norm_num [List.chain'_cons]) (by decide)

/-! ## `difflib` fuzzy matching (Python standard library, used by `_get_table_data`)

`_get_table_data` resolves a search term that is not an exact internal path with
`difflib.get_close_matches(search_term, path_to_accessor.keys(), n=1, cutoff=0.3)`.
The embedding below follows CPython's `difflib.SequenceMatcher` with `isjunk=None`;
the autojunk popularity heuristic only applies to sequences of 200+ elements and is
never triggered by internal file paths, so `b2j` maps each character of `b` to all of
its positions.  Floats are modelled as exact rationals. -/

/-- `b2j[a[i]]` : the (ascending) positions of character `c` in `b`. -/
def positionsOf (c : Char) (b : List Char) : List Nat :=
  (List.range b.length).filter fun j => b.getD j c == c

/-- `j2len.get(j, 0)` on the dict carried by `find_longest_match`. -/
def lookupD (l : List (Nat × Nat)) (k : Nat) : Nat :=
  ((l.find? fun p => p.1 == k).map Prod.snd).getD 0

/-- The `(besti, bestj, bestsize)` triple tracked by `find_longest_match`. -/
structure FLMState where
  besti : Nat
  bestj : Nat
  bestsize : Nat
  deriving DecidableEq

/-- Body of the inner `for j in b2j.get(a[i], [])` loop of `find_longest_match`:
`j < blo` is `continue`; since positions are ascending, `j >= bhi` (Python's `break`)
also just skips the remaining positions. -/
def flmInnerStep (i blo bhi : Nat) (j2len : List (Nat × Nat))
    (acc : List (Nat × Nat) × FLMState) (j : Nat) : List (Nat × Nat) × FLMState :=
  if j < blo || bhi ≤ j then acc
  else
    -- `j2len.get(j-1, 0)`: at `j = 0` Python looks up key `-1`, which is never present.
    let k := (if j == 0 then 0 else lookupD j2len (j - 1)) + 1
    let newj2len := (j, k) :: acc.1
    if k > acc.2.bestsize then (newj2len, ⟨i + 1 - k, j + 1 - k, k⟩) else (newj2len, acc.2)

/-- First extension loop of `find_longest_match`
(`while besti > alo and bestj > blo and a[besti-1] == b[bestj-1]`; the junk guard is
vacuous with no junk).  The fuel argument is an upper bound on `besti`, which strictly
decreases at each iteration. -/
def flmExtendLeft (a b : List Char) (alo blo : Nat) : FLMState → Nat → FLMState
  | st, 0 => st
  | st, fuel + 1 =>
    if alo < st.besti && blo < st.bestj
        && (a.getD (st.besti - 1) 'a' == b.getD (st.bestj - 1) 'b') then
      flmExtendLeft a b alo blo ⟨st.besti - 1, st.bestj - 1, st.bestsize + 1⟩ fuel
    else st

/-- Second extension loop of `find_longest_match`
(`while besti+bestsize < ahi and bestj+bestsize < bhi and a[besti+bestsize] == b[bestj+bestsize]`). -/
def flmExtendRight (a b : List Char) (ahi bhi : Nat) : FLMState → Nat → FLMState
  | st, 0 => st
  | st, fuel + 1 =>
    if st.besti + st.bestsize < ahi && st.bestj + st.bestsize < bhi
        && (a.getD (st.besti + st.bestsize) 'a' == b.getD (st.bestj + st.bestsize) 'b') then
      flmExtendRight a b ahi bhi ⟨st.besti, st.bestj, st.bestsize + 1⟩ fuel
    else st

/-- `SequenceMatcher.find_longest_match(alo, ahi, blo, bhi)` with no junk: the dynamic
programming pass over `j2len` followed by the two (here vacuous at the DP optimum, but
faithfully executed) extension loops.  Ties on size keep the lowest `i`, then lowest `j`,
because later candidates must be strictly larger to replace the best. -/
def find_longest_match (a b : List Char) (alo ahi blo bhi : Nat) : FLMState :=
  let step := fun (p : List (Nat × Nat) × FLMState) (i : Nat) =>
    ((positionsOf (a.getD i 'a') b).foldl (flmInnerStep i blo bhi p.1) ([], p.2))
  let st := ((List.range' alo (ahi - alo)).foldl step ([], ⟨alo, blo, 0⟩)).2
  let st := flmExtendLeft a b alo blo st st.besti
  flmExtendRight a b ahi bhi st (ahi - (st.besti + st.bestsize))

/-- Total size of the matching blocks found by `SequenceMatcher.get_matching_blocks`'
divide-and-conquer recursion (the adjacent-block merge performed afterwards preserves
the total size, which is all `ratio` uses).  Each recursive call strictly shrinks
`(ahi - alo) + (bhi - blo)`, so `a.length + b.length + 1` fuel suffices. -/
def matchingBlocksSize (a b : List Char) : Nat → Nat × Nat × Nat × Nat → Nat
  | 0, _ => 0
  | fuel + 1, (alo, ahi, blo, bhi) =>
    let st := find_longest_match a b alo ahi blo bhi
    if st.bestsize == 0 then 0
    else
      st.bestsize
      + (if alo < st.besti && blo < st.bestj then
          matchingBlocksSize a b fuel (alo, st.besti, blo, st.bestj) else 0)
      + (if st.besti + st.bestsize < ahi && st.bestj + st.bestsize < bhi then
          matchingBlocksSize a b fuel (st.besti + st.bestsize, ahi, st.bestj + st.bestsize, bhi)
        else 0)

/-- `difflib._calculate_ratio(matches, length)`. -/
def calculate_ratio (numMatches length : Nat) : ℚ :=
  if length = 0 then 1 else mkRat (2 * numMatches) length

/-- `SequenceMatcher.ratio()` for `a = seq1`, `b = seq2`. -/
def sequenceRatio (a b : List Char) : ℚ :=
  calculate_ratio
    (matchingBlocksSize a b (a.length + b.length + 1) (0, a.length, 0, b.length))
    (a.length + b.length)

/-- `SequenceMatcher.quick_ratio()`: counts `sum_c min(count_a c, count_b c)` by the
`avail` dict walk of the CPython source. -/
def quickRatioStep (b : List Char) (acc : List (Char × Int) × Nat) (c : Char) :
    List (Char × Int) × Nat :=
  let numb : Int :=
    ((acc.1.find? fun p => p.1 == c).map Prod.snd).getD (Int.ofNat (b.count c))
  ((c, numb - 1) :: acc.1, if 0 < numb then acc.2 + 1 else acc.2)

def quickRatioMatches (a b : List Char) : Nat :=
  (a.foldl (quickRatioStep b) ([], 0)).2

def quick_ratio (a b : List Char) : ℚ :=
  calculate_ratio (quickRatioMatches a b) (a.length + b.length)

def real_quick_ratio (a b : List Char) : ℚ :=
  calculate_ratio (min a.length b.length) (a.length + b.length)

/-- Python tuple comparison `(ratio, string) < (ratio, string)`: lexicographic, with
list-of-character comparison on the second component. -/
def charListLt : List Char → List Char → Bool
  | [], [] => false
  | [], _ :: _ => true
  | _ :: _, [] => false
  | c :: cs, d :: ds => if c = d then charListLt cs ds else c < d

def scoredLt (p q : ℚ × List Char) : Bool :=
  p.1 < q.1 || (p.1 == q.1 && charListLt p.2 q.2)

/-- `heapq.nlargest(1, result)` as used by `get_close_matches(n=1, ...)`: the maximum
scored pair under Python tuple ordering, or `[]` when no candidate survived the cutoff. -/
def nlargest1 (ps : List (ℚ × List Char)) : List (ℚ × List Char) :=
  match ps with
  | [] => []
  | p :: rest => [rest.foldl (fun best q => if scoredLt best q then q else best) p]

/-- `difflib.get_close_matches(word, possibilities, n=1, cutoff)`: keep the candidates
whose similarity to `word` reaches `cutoff` (the `real_quick_ratio`/`quick_ratio` tests
are upper-bound prefilters of the same conjunction), then the best scored one. -/
def get_close_matches1 (word : List Char) (possibilities : List (List Char))
    (cutoff : ℚ) : List (List Char) :=
  let result := possibilities.filterMap fun x =>
    if cutoff ≤ real_quick_ratio x word ∧ cutoff ≤ quick_ratio x word
        ∧ cutoff ≤ sequenceRatio x word then
      some (sequenceRatio x word, x)
    else none
  (nlargest1 result).map Prod.snd

/-- String-level similarity, as `difflib.SequenceMatcher(None, x, word).ratio()`. -/
def stringRatio (x word : String) : ℚ := sequenceRatio x.toList word.toList

/-- `difflib.get_close_matches(word, possibilities, n=1, cutoff)` over strings. -/
def get_close_matches (word : String) (possibilities : List String) (cutoff : ℚ) :
    List String :=
  (get_close_matches1 word.toList (possibilities.map String.toList) cutoff).map
    fun l => String.mk l

/-! ## Container and table model (tables.py, `_get_table_data` and callers)

A container is modelled by its file path and the tables it holds: an
insertion-ordered association list from normalized internal path to the table's
column dict (`_get_table_column_accessors` returns, for an HDF5 backend, the columns
in container iteration order; the zarr thread-pool variant only permutes that order,
which none of the verified properties depend on).  A column accessor is modelled by
its number of dimensions and its flat per-row data; cell payloads are abstracted to
`Nat`, which also serves as the offset type of `_index` columns.  The hierarchy
traversal of `_get_internal_file_paths` (which skips `/specifications`, table column
groups and top-level metadata) is abstracted: the candidate paths it yields are
exactly the container's table paths. -/

/-- A column accessor (`zarr.Array | h5py.Dataset`): its `ndim` and per-row data.
For a ragged data column, `data` is the flat concatenated buffer. -/
structure ColumnDef where
  ndim : Nat
  data : List Nat
  deriving DecidableEq

instance : Inhabited ColumnDef := ⟨⟨1, []⟩⟩

/-- One NWB file: its path and tables, keyed by normalized internal path. -/
structure Container where
  filePath : String
  tables : List (String × List (String × ColumnDef))
  deriving DecidableEq

/-- `s.startswith(pre)` over the character lists (Lean's `String.startsWith` is not
kernel-reducible). -/
def strStartsWith (s pre : String) : Bool :=
  pre.toList.isPrefixOf s.toList

/-- `s.endswith(suf)` over the character lists. -/
def strEndsWith (s suf : String) : Bool :=
  suf.toList.isSuffixOf s.toList

/-- `lazynwb.utils.normalize_internal_file_path`: add a leading `/` if not present. -/
def normalize_internal_file_path (path : String) : String :=
  if strStartsWith path "/" then path else "/" ++ path

/-- `file[table_path]`: an h5py/zarr root group resolves both `units` and `/units`. -/
def containerLookup (file : Container) (path : String) :
    Option (List (String × ColumnDef)) :=
  (file.tables.find? fun t => t.1 == normalize_internal_file_path path).map Prod.snd

/-- `path in file` (`FileAccessor.__contains__`). -/
def containerContains (file : Container) (path : String) : Bool :=
  (containerLookup file path).isSome

/-- Candidate table paths yielded by `_get_internal_file_paths(file._accessor)`. -/
def internalPaths (file : Container) : List String :=
  file.tables.map Prod.fst

/-- Exception classes raised by the embedded code paths: `KeyError` (missing
table/path), `ValueError` (ambiguous include/exclude sets, failed open),
`StopIteration` (bare, from `next(iter(column_data.values()))` on an empty dict),
`AttributeError` (missing module attribute). -/
inductive Err where
  | keyError (msg : String)
  | valueError (msg : String)
  | stopIteration
  | attributeError (msg : String)
  deriving DecidableEq

/-- `is_nominally_indexed_column(column_name, all_column_names)` (tables.py lines
428-445). -/
def is_nominally_indexed_column (column_name : String) (all_column_names : List String) :
    Bool :=
  if ¬ all_column_names.contains column_name then false
  else if strEndsWith column_name "_index" then
    all_column_names.contains (column_name.dropRight "_index".length)
  else all_column_names.contains (column_name ++ "_index")

/-- `get_indexed_column_names(column_names)` (tables.py lines 448-455), as an ordered
list (the source returns a set; only membership is ever used). -/
def get_indexed_column_names (column_names : List String) : List String :=
  column_names.filter fun k => is_nominally_indexed_column k column_names

/-- `column_accessors.pop(name, None)` on the insertion-ordered dict. -/
def popColumn (d : List (String × ColumnDef)) (name : String) : List (String × ColumnDef) :=
  d.filter fun p => p.1 != name

/-- `name.removesuffix("_index")`. -/
def removeIndexSuffix (name : String) : String :=
  if strEndsWith name "_index" then name.dropRight "_index".length else name

/-- One iteration of the column-filtering loop of `_get_table_data` (lines 298-312):
the loop runs over a snapshot of the original keys, but `is_nominally_indexed_column`
consults the keys of the *current*, already-mutated dict. -/
def filterStep (include? exclude? : Option (List String)) (exclude_array_columns : Bool)
    (d : List (String × ColumnDef)) (name : String) : List (String × ColumnDef) :=
  let keys := d.map Prod.fst
  let is_indexed := is_nominally_indexed_column name keys
  let is_excluded := match exclude? with
    | some ex => ex.contains name
    | none => false
  let is_included := match include? with
    | some inc => inc.contains name
    | none => false
  let is_not_included := match include? with
    | some inc => ¬ inc.contains name
    | none => false
  if is_not_included || is_excluded || (exclude_array_columns && is_indexed && !is_included)
  then popColumn (popColumn (popColumn d name) (name ++ "_index")) (removeIndexSuffix name)
  else d

/-- The whole filtering loop: `for name in tuple(column_accessors.keys()): ...`. -/
def filterColumns (include? exclude? : Option (List String)) (exclude_array_columns : Bool)
    (d : List (String × ColumnDef)) : List (String × ColumnDef) :=
  (d.map Prod.fst).foldl (filterStep include? exclude? exclude_array_columns) d

/-- `accessor[_idx]` where `_idx` is either `slice(None)` or the requested row indices. -/
def selectRows (xs : List Nat) (rows : Option (List Nat)) : List Nat :=
  match rows with
  | none => xs
  | some is => is.map fun i => xs.getD i 0

/-- A materialized column: flat columns (and multi-dimensional columns, whose per-row
arrays are abstracted to one payload per row) hold one value per row; ragged columns
hold one sub-array per row. -/
inductive ColValue where
  | flat (xs : List Nat)
  | ragged (xss : List (List Nat))
  deriving DecidableEq

/-- `len()` of a materialized column. -/
def colLength : ColValue → Nat
  | .flat xs => xs.length
  | .ragged xss => xss.length

def lookupColumn (cols : List (String × ColumnDef)) (name : String) : ColumnDef :=
  ((cols.find? fun p => p.1 == name).map Prod.snd).getD default

/-- The materialization phase of `_get_table_data` (lines 314-360) on the filtered
column dict: 1-dimensional non-indexed columns are read eagerly (`astype(str)` only
changes the cell representation, not the selection, and is dropped by the payload
abstraction); indexed (ragged) columns go through `get_indexed_column_data`; `ndim >= 2`
columns are read per-row — the latter two only when `exclude_array_columns` is False.
`column_data` receives flat columns first, then ragged, then multi-dimensional ones,
matching the three loops of the source.  The source iterates Python sets for the
non-indexed and ragged-data name collections; the model keeps insertion order, on
which no verified property depends (all materialized columns share one row count). -/
def materializeColumns (cols : List (String × ColumnDef)) (exclude_array_columns : Bool)
    (table_row_indices : Option (List Nat)) : List (String × ColValue) :=
  let keys := cols.map Prod.fst
  let indexed_column_names := get_indexed_column_names keys
  let non_indexed_column_names := keys.filter fun k => ¬ indexed_column_names.contains k
  let multi_dim_column_names := non_indexed_column_names.filter fun k =>
    2 ≤ (lookupColumn cols k).ndim
  let flat_column_names := non_indexed_column_names.filter fun k =>
    (lookupColumn cols k).ndim < 2
  let flat := flat_column_names.map fun k =>
    (k, ColValue.flat (selectRows (lookupColumn cols k).data table_row_indices))
  let ragged := if ¬ exclude_array_columns then
      (indexed_column_names.filter fun k => ¬ strEndsWith k "_index").map fun k =>
        (k, ColValue.ragged (get_indexed_column_data (lookupColumn cols k).data
          (lookupColumn cols (k ++ "_index")).data table_row_indices))
    else []
  let multi := if ¬ exclude_array_columns then
      multi_dim_column_names.map fun k =>
        (k, ColValue.flat (selectRows (lookupColumn cols k).data table_row_indices))
    else []
  flat ++ ragged ++ multi

/-- The result of `_get_table_data`: the materialized columns together with the three
row-identity columns (`_nwb_path`, `_table_path`, `_table_index = np.arange(len)`). -/
structure Frame where
  columns : List (String × ColValue)
  nwbPath : String
  tablePath : String
  tableIndexLen : Nat
  deriving DecidableEq

/-- The resolver prefix of `_get_table_data` (lines 252-270): an exact path is used
as-is; otherwise, when the (normalized) search term is not present in the file, the
candidate internal paths are fuzzy-matched with
`difflib.get_close_matches(search_term, candidates, n=1, cutoff=0.3)`; no match raises
`KeyError` (the warning emitted for a non-substring or ambiguous match is log-only). -/
def resolveTablePath (file : Container) (search_term : String) (exact_path : Bool) :
    Except Err String :=
  if ¬ exact_path ∧ ¬ containerContains file (normalize_internal_file_path search_term) then
    match get_close_matches search_term (internalPaths file) (mkRat 3 10) with
    | [] => .error (.keyError search_term)
    | m :: _ => .ok m
  else .ok search_term

/-- `_get_table_data(file, search_term, ...)` (tables.py lines 242-376). -/
def _get_table_data (file : Container) (search_term : String) (exact_path : Bool)
    (include_column_names exclude_column_names : Option (List String))
    (exclude_array_columns : Bool) (table_row_indices : Option (List Nat)) :
    Except Err Frame := do
  let search_term ← resolveTablePath file search_term exact_path
  let column_accessors ← (match containerLookup file search_term with
    | some cs => Except.ok cs
    | none => Except.error (Err.keyError search_term))
  if (include_column_names.getD []).any
      (fun c => (exclude_column_names.getD []).contains c) then
    throw (Err.valueError "column names are both included and excluded")
  let filtered := filterColumns include_column_names exclude_column_names
    exclude_array_columns column_accessors
  let column_data := materializeColumns filtered exclude_array_columns table_row_indices
  match column_data with
  | [] => throw Err.stopIteration
  | (_, v) :: _ =>
      pure { columns := column_data
             nwbPath := file.filePath
             tablePath := normalize_internal_file_path search_term
             tableIndexLen := colLength v }

/-! ## `get_df` (tables.py lines 94-239) -/

/-- The known-table speedup of `get_df` (lines 158-162): a search term equal to the
string `"trials"` is rewritten to the exact internal path `/intervals/trials` with
`exact_path=True` forced on. -/
def get_df_search_args (search_term : String) (exact_path : Bool) : String × Bool :=
  if search_term == "trials" then ("/intervals/trials", true) else (search_term, exact_path)

/-- The single-source branch of `get_df` (lines 164-176): no pool, one
`_get_df_helper` call. -/
def get_df_single (file : Container) (search_term : String) (exact_path : Bool)
    (include_column_names exclude_column_names : Option (List String))
    (exclude_array_columns : Bool) (table_row_indices : Option (List Nat)) :
    Except Err Frame :=
  let args := get_df_search_args search_term exact_path
  _get_table_data file args.1 args.2 include_column_names exclude_column_names
    exclude_array_columns table_row_indices

/-- Pool selection in the multi-source branch of `get_df` (lines 178-188): whether the
process pool executor ends up being used.
`if exclude_array_columns and use_process_pool: use_process_pool = False`. -/
def get_df_use_process_pool (exclude_array_columns use_process_pool : Bool) : Bool :=
  if exclude_array_columns && use_process_pool then false else use_process_pool

/-- Whether a per-source result is the missing-table failure (`except KeyError`). -/
def isKeyError : Except Err Frame → Bool
  | .error (.keyError _) => true
  | _ => false

/-- The successfully materialized per-source frames, in submission order. -/
def okFrames : List (Except Err Frame) → List Frame
  | [] => []
  | .ok f :: rest => f :: okFrames rest
  | .error _ :: rest => okFrames rest

/-- The result-draining loop of multi-source `get_df` (lines 211-229): each per-source
result is appended; a `KeyError` (missing table) re-raises when `raise_on_missing` and
is otherwise logged as a warning and the source skipped; any other exception re-raises
unless `suppress_errors`, in which case it is logged and the source skipped.  Returns
the collected per-source frames together with the number of warnings logged.
Completion order is modelled as submission order; the properties proved below only
depend on which sources succeed. -/
def drainResults (raise_on_missing suppress_errors : Bool) :
    List (Except Err Frame) → Except Err (List Frame × Nat)
  | [] => Except.ok ([], 0)
  | r :: rest =>
    match r with
    | .ok f =>
      match drainResults raise_on_missing suppress_errors rest with
      | .ok (fs, w) => .ok (f :: fs, w)
      | .error e => .error e
    | .error (.keyError m) =>
      if raise_on_missing then .error (.keyError m)
      else
        match drainResults raise_on_missing suppress_errors rest with
        | .ok (fs, w) => .ok (fs, w + 1)
        | .error e => .error e
    | .error e =>
      if suppress_errors then
        match drainResults raise_on_missing suppress_errors rest with
        | .ok (fs, w) => .ok (fs, w + 1)
        | .error e' => .error e'
      else .error e

/-- The per-source materialization tasks submitted by multi-source `get_df`
(lines 178-239): one `_get_df_helper` (hence `_get_table_data`) call per path, with
the search-term rewrite applied and `table_row_indices` not forwarded. -/
def perSourceResults (files : List Container) (search_term : String) (exact_path : Bool)
    (include_column_names exclude_column_names : Option (List String))
    (exclude_array_columns : Bool) : List (Except Err Frame) :=
  let args := get_df_search_args search_term exact_path
  files.map fun f => _get_table_data f args.1 args.2 include_column_names
    exclude_column_names exclude_array_columns none

/-- The multi-source branch of `get_df` (lines 178-239): the per-source tasks drained
with per-source `KeyError` isolation; the frames are kept per-source here (the polars
`diagonal_relaxed` concat is the union-of-columns merge, which the verified properties
do not inspect). -/
def get_df_multi (files : List Container) (search_term : String) (exact_path : Bool)
    (include_column_names exclude_column_names : Option (List String))
    (exclude_array_columns : Bool) (raise_on_missing suppress_errors : Bool) :
    Except Err (List Frame × Nat) :=
  drainResults raise_on_missing suppress_errors
    (perSourceResults files search_term exact_path include_column_names
      exclude_column_names exclude_array_columns)

/-- `get_df` over a list of sources: a single path takes the inline branch (lines
164-176) — no pool, no `KeyError` isolation, any error propagating — while several
paths take the multi-source branch. -/
def get_df (files : List Container) (search_term : String) (exact_path : Bool)
    (include_column_names exclude_column_names : Option (List String))
    (exclude_array_columns : Bool) (table_row_indices : Option (List Nat))
    (raise_on_missing suppress_errors : Bool) : Except Err (List Frame × Nat) :=
  match files with
  | [f] =>
    match get_df_single f search_term exact_path include_column_names
        exclude_column_names exclude_array_columns table_row_indices with
    | .ok fr => .ok ([fr], 0)
    | .error e => .error e
  | _ => get_df_multi files search_term exact_path include_column_names
      exclude_column_names exclude_array_columns raise_on_missing suppress_errors

/-! ## Lazy scan engine (lazyframe.py, `scan_nwb` / `source_generator`)

`source_generator(with_columns, predicate, n_rows, batch_size)` is the polars IO-source
callback registered by `scan_nwb`.  Without a predicate it yields the `get_df` result
(truncated to `n_rows`).  With a predicate it materializes the predicate's root-name
columns, filters, and then — in every iteration of its batch loop — builds the inner
`get_df` call's arguments by evaluating `lazynwb.tables._get_path_to_row_indices(...)`.
No function of that name exists anywhere in the package, and `get_df` accepts no
`nwb_path_to_row_indices` keyword, so the first loop iteration raises
`AttributeError: module lazynwb.tables has no attribute _get_path_to_row_indices`.
`filtered_len` abstracts `len(df.filter(predicate))`: the loop body runs iff the
effective row bound `n_rows = n_rows or len(filtered_df)` is positive. -/
def scanRowBound (filtered_len : Nat) (n_rows : Option Nat) : Nat :=
  match n_rows with
  | none => filtered_len
  | some 0 => filtered_len
  | some m => m

def source_generator (files : List Container) (table_path : String)
    (initial_columns : List String) (filtered_len : Nat) (n_rows : Option Nat) :
    Except Err (List Frame) :=
  match get_df files table_path false
      (if initial_columns.isEmpty then none else some initial_columns) none true
      none false false with
  | .error e => .error e
  | .ok _ =>
    if 0 < scanRowBound filtered_len n_rows then
      .error (.attributeError "module lazynwb.tables has no attribute _get_path_to_row_indices")
    else .ok []

/-! ## Accessor cache (file_io.py, `FileAccessor.__new__` / `__init__`, `clear_cache`)

The cache maps canonical source keys (`upath.UPath(path).as_posix()`, abstracted as a
caller-supplied `canonical` function) to accessor instances, identified by creation
order.  `opens` abstracts whether `_open_file` succeeds for a path.  The state records
every cached instance, the number of `_open_file` attempts, and which instances
completed `__init__` (acquired their `_accessor`). -/

structure CacheState where
  cache : List (String × Nat)
  nextId : Nat
  openAttempts : Nat
  initialized : List Nat
  deriving DecidableEq

def initCacheState : CacheState := ⟨[], 0, 0, []⟩

/-- `clear_cache()` (file_io.py lines 34-40): `_accessor_cache.clear()`. -/
def clear_cache (st : CacheState) : CacheState :=
  { st with cache := [] }

/-- `FileAccessor(path)`: `__new__` (lines 139-163) followed by `__init__`
(lines 165-179) with no custom accessor.  `__new__` returns the cached instance for
the canonical key if present (marking `_skip_init`, so `__init__` does nothing);
otherwise it creates a fresh instance and *caches it before `__init__` runs*.
`__init__` then calls `_open_file`, which raises `ValueError` when no backend opens
the path — after the instance has already been cached. -/
def FileAccessor_new (canonical : String → String) (opens : String → Bool)
    (st : CacheState) (path : String) : Except Err Nat × CacheState :=
  let key := canonical path
  match st.cache.lookup key with
  | some inst => (.ok inst, st)
  | none =>
    let inst := st.nextId
    let cached : CacheState :=
      { st with cache := (key, inst) :: st.cache, nextId := inst + 1 }
    let attempted : CacheState := { cached with openAttempts := cached.openAttempts + 1 }
    if opens path then
      (.ok inst, { attempted with initialized := inst :: attempted.initialized })
    else
      (.error (.valueError "Failed to open as HDF5 or Zarr"), attempted)

instance exceptDecEq {ε α : Type} [DecidableEq ε] [DecidableEq α] :
    DecidableEq (Except ε α) := fun x y =>
  match x, y with
  | .ok a, .ok b =>
    if h : a = b then isTrue (by rw [h])
    else isFalse (fun hh => h (Except.ok.inj hh))
  | .ok _, .error _ => isFalse (fun hh => Except.noConfusion hh)
  | .error _, .ok _ => isFalse (fun hh => Except.noConfusion hh)
  | .error e, .error f =>
    if h : e = f then isTrue (by rw [h])
    else isFalse (fun hh => h (Except.error.inj hh))

/-! ## Concrete containers used as witnesses and counterexamples -/

/-- A file with trials and epochs interval tables (the C8 resolver scenario). -/
def intervalsFile : Container :=
  ⟨"f.nwb",
    [("/intervals/trials", [("start_time", ⟨1, [1, 2, 3]⟩), ("stop_time", ⟨1, [4, 5, 6]⟩)]),
     ("/intervals/epochs", [("start_time", ⟨1, [7, 8]⟩)])]⟩

/-- A file with a single-column units table. -/
def unitsFile : Container :=
  ⟨"a.nwb", [("/units", [("quality", ⟨1, [1, 2, 3]⟩)])]⟩

/-- A file holding no `/units` table (and no `/intervals/trials`), only a
trials-like table at a non-standard path. -/
def oddTrialsFile : Container :=
  ⟨"b.nwb", [("/processing/trials", [("start_time", ⟨1, [1]⟩)])]⟩

/-! ## Claim theorems -/

/-- **C4, counterexample**: the claim states that requesting ragged materialization
(`exclude_array_columns=False`) together with `use_process_pool=True` disables the
process pool.  In the code the disabling condition is
`if exclude_array_columns and use_process_pool`, so with `exclude_array_columns=False`
the process pool is *used*, not disabled. -/
theorem C4_counterexample : get_df_use_process_pool false true = true := rfl

/-- **C4, amended**: in the multi-source branch of `get_df` the process pool is
automatically disabled exactly when `exclude_array_columns` is True (ragged
materialization NOT requested); when `exclude_array_columns` is False the caller's
`use_process_pool` choice is honored. -/
theorem C4_pool_selection (use_process_pool : Bool) :
    get_df_use_process_pool true use_process_pool = false
    ∧ get_df_use_process_pool false use_process_pool = use_process_pool := by
  cases use_process_pool <;> exact ⟨rfl, rfl⟩

/-- **C5, counterexample**: a single-file materialization whose include-list leaves
zero surviving columns (one column was requested, but it does not exist in the table)
raises a bare `StopIteration` — from `len(next(iter(column_data.values())))` on the
empty column dict — not the distinguishable `ValueError` that `_get_table_data` uses
for schema conflicts (overlapping include/exclude sets). -/
theorem C5_counterexample :
    _get_table_data unitsFile "/units" true (some ["missing_col"]) none true none
        = .error .stopIteration
    ∧ ∀ m, _get_table_data unitsFile "/units" true (some ["missing_col"]) none true none
        ≠ .error (.valueError m) := by
  have h : _get_table_data unitsFile "/units" true (some ["missing_col"]) none true none
      = .error .stopIteration := by decide
  refine ⟨h, fun m hm => ?_⟩
  rw [h] at hm
  exact Err.noConfusion (Except.error.inj hm)

/-- **C5, amended**: whenever the resolved table exists, the include/exclude sets do
not overlap, and the filtering + materialization leaves zero materialized columns,
`_get_table_data` fails hard with `StopIteration` — it never returns a silently empty
frame — but the error is a bare `StopIteration`, not a distinguishable
schema-conflict `ValueError`. -/
theorem C5_zero_columns_hard_failure (file : Container) (search_term resolved : String)
    (exact_path : Bool) (include_column_names exclude_column_names : Option (List String))
    (exclude_array_columns : Bool) (table_row_indices : Option (List Nat))
    (cols : List (String × ColumnDef))
    (hres : resolveTablePath file search_term exact_path = .ok resolved)
    (hlook : containerLookup file resolved = some cols)
    (hnooverlap : (include_column_names.getD []).any
      (fun c => (exclude_column_names.getD []).contains c) = false)
    (hempty : materializeColumns
      (filterColumns include_column_names exclude_column_names exclude_array_columns cols)
      exclude_array_columns table_row_indices = []) :
    _get_table_data file search_term exact_path include_column_names exclude_column_names
      exclude_array_columns table_row_indices = .error .stopIteration := by
  unfold _get_table_data
  rw [hres]
  simp only [Bind.bind, Except.bind, hlook, hnooverlap, Bool.false_eq_true, if_false, hempty]
  rfl

/-- Witness for C5's amended theorem: excluding the only column of the units table
leaves zero materialized columns and raises `StopIteration`. -/
theorem C5_zero_columns_hard_failure_witness :
    _get_table_data unitsFile "/units" true none (some ["quality"]) true none
        = .error .stopIteration :=
  C5_zero_columns_hard_failure unitsFile "/units" "/units" true none (some ["quality"])
    true none [("quality", ⟨1, [1, 2, 3]⟩)] (by decide) (by decide) (by decide) (by decide)

/-- **C9**: a `get_df` call with search term exactly `"trials"` bypasses the resolver:
the term is rewritten to the exact internal path `/intervals/trials` with exact-path
resolution forced on (whatever `exact_path` the caller passed), so fuzzy matching
never runs, and a file whose trials table lives at any other internal path yields the
missing-table `KeyError`.  The same rewrite applies to the multi-source branch. -/
theorem C9_trials_search_term_rewrite (file : Container) (exact_path : Bool)
    (include_column_names exclude_column_names : Option (List String))
    (exclude_array_columns : Bool) (table_row_indices : Option (List Nat)) :
    (get_df_single file "trials" exact_path include_column_names exclude_column_names
        exclude_array_columns table_row_indices
      = _get_table_data file "/intervals/trials" true include_column_names
          exclude_column_names exclude_array_columns table_row_indices)
    ∧ (containerContains file "/intervals/trials" = false →
        get_df_single file "trials" exact_path include_column_names exclude_column_names
          exclude_array_columns table_row_indices = .error (.keyError "/intervals/trials"))
    ∧ (∀ (files : List Container) (raise_on_missing suppress_errors : Bool),
        get_df_multi files "trials" exact_path include_column_names exclude_column_names
            exclude_array_columns raise_on_missing suppress_errors
          = drainResults raise_on_missing suppress_errors
              (files.map fun f => _get_table_data f "/intervals/trials" true
                include_column_names exclude_column_names exclude_array_columns none)) := by
  refine ⟨rfl, ?_, fun files rom se => rfl⟩
  intro hmiss
  have hnone : containerLookup file "/intervals/trials" = none := by
    rw [containerContains] at hmiss
    exact Option.not_isSome_iff_eq_none.mp (by rw [hmiss]; exact Bool.false_ne_true)
  show _get_table_data file "/intervals/trials" true include_column_names
      exclude_column_names exclude_array_columns table_row_indices
    = .error (.keyError "/intervals/trials")
  unfold _get_table_data resolveTablePath
  simp only [Bool.not_eq_true, false_and, if_false, Bind.bind, Except.bind, hnone,
    Bool.true_eq_false, ite_false, if_neg]
  simp [hnone]

/-- Witness for C9 at a concrete input: a file storing its trials table at
`/processing/trials` is not found by `get_df(..., "trials")`, despite fuzzy matching
being available (`exact_path=False` was passed). -/
theorem C9_trials_search_term_rewrite_witness :
    get_df_single oddTrialsFile "trials" false none none true none
        = .error (.keyError "/intervals/trials") :=
  (C9_trials_search_term_rewrite oddTrialsFile false none none true none).2.1 (by decide)

/-- **C7** (cache identity): starting from an empty accessor cache, two `FileAccessor`
constructions on paths with the same canonical key return the same instance with a
single physical open between them; `clear_cache()` in between makes the second call
produce a fresh, distinct instance. -/
theorem C7_cache_identity (canonical : String → String) (opens : String → Bool)
    (p1 p2 : String) (hkey : canonical p1 = canonical p2)
    (h1 : opens p1 = true) (h2 : opens p2 = true) :
    (FileAccessor_new canonical opens initCacheState p1).1 = .ok 0
    ∧ (FileAccessor_new canonical opens
        (FileAccessor_new canonical opens initCacheState p1).2 p2).1 = .ok 0
    ∧ (FileAccessor_new canonical opens
        (FileAccessor_new canonical opens initCacheState p1).2 p2).2.openAttempts = 1
    ∧ (FileAccessor_new canonical opens
        (clear_cache (FileAccessor_new canonical opens
          (FileAccessor_new canonical opens initCacheState p1).2 p2).2) p2).1 = .ok 1
    ∧ (1 : Nat) ≠ 0 := by
  have hfst : FileAccessor_new canonical opens initCacheState p1
      = (.ok 0, ⟨[(canonical p1, 0)], 1, 1, [0]⟩) := by
    unfold FileAccessor_new initCacheState
    simp [h1]
  have hsnd : FileAccessor_new canonical opens ⟨[(canonical p1, 0)], 1, 1, [0]⟩ p2
      = (.ok 0, ⟨[(canonical p1, 0)], 1, 1, [0]⟩) := by
    unfold FileAccessor_new
    rw [← hkey]
    simp [List.lookup]
  have hthird : FileAccessor_new canonical opens
      (clear_cache ⟨[(canonical p1, 0)], 1, 1, [0]⟩) p2
      = (.ok 1, ⟨[(canonical p2, 1)], 2, 2, [1, 0]⟩) := by
    unfold FileAccessor_new clear_cache
    simp [h2, List.lookup]
  rw [hfst]
  rw [show ((Except.ok 0 : Except Err Nat),
      (⟨[(canonical p1, 0)], 1, 1, [0]⟩ : CacheState)).2
    = (⟨[(canonical p1, 0)], 1, 1, [0]⟩ : CacheState) from rfl]
  rw [hsnd]
  refine ⟨rfl, rfl, rfl, ?_, by omega⟩
  rw [show ((Except.ok 0 : Except Err Nat),
      (⟨[(canonical p1, 0)], 1, 1, [0]⟩ : CacheState)).2
    = (⟨[(canonical p1, 0)], 1, 1, [0]⟩ : CacheState) from rfl]
  rw [hthird]

/-- Witness for C7 at concrete inputs: identical paths, always-successful opens. -/
theorem C7_cache_identity_witness :
    (FileAccessor_new id (fun _ => true) initCacheState "/data/a.nwb").1 = .ok 0
    ∧ (FileAccessor_new id (fun _ => true)
        (FileAccessor_new id (fun _ => true) initCacheState "/data/a.nwb").2
        "/data/a.nwb").1 = .ok 0
    ∧ (FileAccessor_new id (fun _ => true)
        (FileAccessor_new id (fun _ => true) initCacheState "/data/a.nwb").2
        "/data/a.nwb").2.openAttempts = 1
    ∧ (FileAccessor_new id (fun _ => true)
        (clear_cache (FileAccessor_new id (fun _ => true)
          (FileAccessor_new id (fun _ => true) initCacheState "/data/a.nwb").2
          "/data/a.nwb").2) "/data/a.nwb").1 = .ok 1
    ∧ (1 : Nat) ≠ 0 :=
  C7_cache_identity id (fun _ => true) "/data/a.nwb" "/data/a.nwb" rfl rfl rfl

/-- **C10** (non-atomic open failure): when no backend can open a path,
`FileAccessor.__new__` has already inserted the new instance into the accessor cache
before `__init__`'s `_open_file` raises, so the constructor raises `ValueError` while
the cache retains the entry; a second construction on the same path then returns that
cached, never-initialized instance without re-attempting the physical open. -/
theorem C10_open_failure_caches_instance (canonical : String → String)
    (opens : String → Bool) (p : String) (hfail : opens p = false) :
    (FileAccessor_new canonical opens initCacheState p).1
        = .error (.valueError "Failed to open as HDF5 or Zarr")
    ∧ (FileAccessor_new canonical opens initCacheState p).2.cache.lookup (canonical p)
        = some 0
    ∧ (FileAccessor_new canonical opens
        (FileAccessor_new canonical opens initCacheState p).2 p).1 = .ok 0
    ∧ (FileAccessor_new canonical opens
        (FileAccessor_new canonical opens initCacheState p).2 p).2.openAttempts = 1
    ∧ (FileAccessor_new canonical opens
        (FileAccessor_new canonical opens initCacheState p).2 p).2.initialized = [] := by
  have hfst : FileAccessor_new canonical opens initCacheState p
      = (.error (.valueError "Failed to open as HDF5 or Zarr"),
         ⟨[(canonical p, 0)], 1, 1, []⟩) := by
    unfold FileAccessor_new initCacheState
    simp [hfail]
  have hsnd : FileAccessor_new canonical opens ⟨[(canonical p, 0)], 1, 1, []⟩ p
      = (.ok 0, ⟨[(canonical p, 0)], 1, 1, []⟩) := by
    unfold FileAccessor_new
    simp [List.lookup]
  rw [hfst]
  rw [show ((Except.error (Err.valueError "Failed to open as HDF5 or Zarr")
      : Except Err Nat),
      (⟨[(canonical p, 0)], 1, 1, []⟩ : CacheState)).2
    = (⟨[(canonical p, 0)], 1, 1, []⟩ : CacheState) from rfl]
  rw [hsnd]
  exact ⟨rfl, by simp [List.lookup], rfl, rfl, rfl⟩

/-- Witness for C10: a concrete path that no backend opens. -/
theorem C10_open_failure_caches_instance_witness :
    (FileAccessor_new id (fun _ => false) initCacheState "/data/bad.nwb").1
        = .error (.valueError "Failed to open as HDF5 or Zarr")
    ∧ (FileAccessor_new id (fun _ => false) initCacheState "/data/bad.nwb").2.cache.lookup
        (id "/data/bad.nwb") = some 0
    ∧ (FileAccessor_new id (fun _ => false)
        (FileAccessor_new id (fun _ => false) initCacheState "/data/bad.nwb").2
        "/data/bad.nwb").1 = .ok 0
    ∧ (FileAccessor_new id (fun _ => false)
        (FileAccessor_new id (fun _ => false) initCacheState "/data/bad.nwb").2
        "/data/bad.nwb").2.openAttempts = 1
    ∧ (FileAccessor_new id (fun _ => false)
        (FileAccessor_new id (fun _ => false) initCacheState "/data/bad.nwb").2
        "/data/bad.nwb").2.initialized = [] :=
  C10_open_failure_caches_instance id (fun _ => false) "/data/bad.nwb" rfl

/-! ### Aggregation isolation (C6) -/

theorem isOk_ok {α : Type} (a : α) : (Except.ok a : Except Err α).isOk = true := rfl

theorem isOk_error {α : Type} (e : Err) : (Except.error e : Except Err α).isOk = false := rfl

/-- In default mode (`raise_on_missing=False`, `suppress_errors=False`), when every
per-source failure is a missing-table `KeyError`, the draining loop returns the frames
of the successful sources in order, with one warning logged per dropped source. -/
theorem drainResults_default (rs : List (Except Err Frame))
    (h : rs.all (fun r => r.isOk || isKeyError r) = true) :
    drainResults false false rs = .ok (okFrames rs, rs.countP (fun r => !r.isOk)) := by
  induction rs with
  | nil => rfl
  | cons r rest ih =>
    rw [List.all_cons, Bool.and_eq_true] at h
    obtain ⟨h1, h2⟩ := h
    cases r with
    | ok f =>
      simp [drainResults, ih h2, okFrames, List.countP_cons, isOk_ok]
    | error e =>
      cases e with
      | keyError m =>
        simp [drainResults, ih h2, okFrames, List.countP_cons, isOk_error]
      | valueError m => simp [isOk_error, isKeyError] at h1
      | stopIteration => simp [isOk_error, isKeyError] at h1
      | attributeError m => simp [isOk_error, isKeyError] at h1

/-- In strict mode (`raise_on_missing=True`) a missing-table `KeyError` from any source
aborts the aggregation with that `KeyError`. -/
theorem drainResults_strict (rs : List (Except Err Frame))
    (h : rs.all (fun r => r.isOk || isKeyError r) = true)
    (hfail : rs.any (fun r => !r.isOk) = true) :
    ∃ m, drainResults true false rs = .error (.keyError m) := by
  induction rs with
  | nil => simp at hfail
  | cons r rest ih =>
    rw [List.all_cons, Bool.and_eq_true] at h
    obtain ⟨h1, h2⟩ := h
    cases r with
    | ok f =>
      rw [List.any_cons] at hfail
      rw [isOk_ok] at hfail
      simp only [Bool.not_true, Bool.false_or] at hfail
      obtain ⟨m, hm⟩ := ih h2 hfail
      exact ⟨m, by simp [drainResults, hm]⟩
    | error e =>
      cases e with
      | keyError m => exact ⟨m, rfl⟩
      | valueError m => simp [isOk_error, isKeyError] at h1
      | stopIteration => simp [isOk_error, isKeyError] at h1
      | attributeError m => simp [isOk_error, isKeyError] at h1

/-- **C6** (aggregation isolation): in a multi-source `get_df` call whose per-source
outcomes are successes and missing-table `KeyError`s, default mode
(`raise_on_missing=False`) returns the frames of the sources that do hold the table, in
order, with one logged warning per missing source; strict mode (`raise_on_missing=True`)
aborts the aggregation with the missing-table `KeyError` as soon as any source lacks
the table. -/
theorem C6_aggregation_isolation (files : List Container) (search_term : String)
    (exact_path : Bool) (include_column_names exclude_column_names : Option (List String))
    (exclude_array_columns : Bool)
    (h : (perSourceResults files search_term exact_path include_column_names
      exclude_column_names exclude_array_columns).all
        (fun r => r.isOk || isKeyError r) = true) :
    (get_df_multi files search_term exact_path include_column_names exclude_column_names
        exclude_array_columns false false
      = .ok (okFrames (perSourceResults files search_term exact_path include_column_names
          exclude_column_names exclude_array_columns),
        (perSourceResults files search_term exact_path include_column_names
          exclude_column_names exclude_array_columns).countP (fun r => !r.isOk)))
    ∧ ((perSourceResults files search_term exact_path include_column_names
          exclude_column_names exclude_array_columns).any (fun r => !r.isOk) = true →
        ∃ m, get_df_multi files search_term exact_path include_column_names
          exclude_column_names exclude_array_columns true false = .error (.keyError m)) :=
  ⟨drainResults_default _ h, fun hfail => drainResults_strict _ h hfail⟩

/-- Witness for C6: three sources, the middle one lacking `/intervals/trials`.
Default aggregation returns the two frames of the sources holding the table with one
warning; strict mode raises the missing-table `KeyError`. -/
theorem C6_aggregation_isolation_witness :
    (get_df_multi [intervalsFile, oddTrialsFile, intervalsFile] "/intervals/trials" true
        none none true false false
      = .ok (okFrames (perSourceResults [intervalsFile, oddTrialsFile, intervalsFile]
          "/intervals/trials" true none none true),
        (perSourceResults [intervalsFile, oddTrialsFile, intervalsFile]
          "/intervals/trials" true none none true).countP (fun r => !r.isOk)))
    ∧ ((perSourceResults [intervalsFile, oddTrialsFile, intervalsFile]
          "/intervals/trials" true none none true).any (fun r => !r.isOk) = true →
        ∃ m, get_df_multi [intervalsFile, oddTrialsFile, intervalsFile]
          "/intervals/trials" true none none true true false = .error (.keyError m)) :=
  C6_aggregation_isolation [intervalsFile, oddTrialsFile, intervalsFile]
    "/intervals/trials" true none none true (by decide)

/-! ### Resolver behaviour (C8) -/

/-- When every candidate's similarity to the query is below the cutoff, fuzzy matching
returns no candidate at all. -/
theorem get_close_matches_below_cutoff (word : String) (ps : List String) (cutoff : ℚ)
    (h : ∀ c ∈ ps, stringRatio c word < cutoff) :
    get_close_matches word ps cutoff = [] := by
  unfold get_close_matches get_close_matches1
  have hnil : (ps.map String.toList).filterMap (fun x =>
      if cutoff ≤ real_quick_ratio x word.toList ∧ cutoff ≤ quick_ratio x word.toList
          ∧ cutoff ≤ sequenceRatio x word.toList then
        some (sequenceRatio x word.toList, x)
      else none) = [] := by
    rw [List.filterMap_eq_nil_iff]
    intro x hx
    obtain ⟨p, hp, rfl⟩ := List.mem_map.mp hx
    rw [if_neg]
    rintro ⟨-, -, h3⟩
    exact absurd h3 (not_le.mpr (h p hp))
  rw [hnil]
  rfl

/-- **C8** (resolver behavior): on a container whose candidate table paths are
`/intervals/trials` and `/intervals/epochs` and the query `"trial"`, exact-path mode
fails with the missing-table `KeyError`, while fuzzy mode selects and resolves
`/intervals/trials`; and in fuzzy mode any query whose best candidate similarity is
below the 0.3 floor (`mkRat 3 10`) (and which is not itself a present path) fails with the
missing-table `KeyError`. -/
theorem C8_resolver_behavior :
    (_get_table_data intervalsFile "trial" true none none true none
        = .error (.keyError "trial"))
    ∧ (resolveTablePath intervalsFile "trial" false = .ok "/intervals/trials")
    ∧ (∀ (file : Container) (word : String),
        containerContains file (normalize_internal_file_path word) = false →
        (∀ c ∈ internalPaths file, stringRatio c word < mkRat 3 10) →
        resolveTablePath file word false = .error (.keyError word)) := by
  refine ⟨by decide, by decide, ?_⟩
  intro file word hcontains hratio
  unfold resolveTablePath
  rw [if_pos ⟨by simp, by simp [hcontains]⟩,
    get_close_matches_below_cutoff word (internalPaths file) (mkRat 3 10) hratio]

/-- Witness for C8's below-floor conjunct at a concrete query: `"qqqq"` shares no
character with either candidate path, so fuzzy resolution fails with `KeyError`. -/
theorem C8_resolver_behavior_witness :
    resolveTablePath intervalsFile "qqqq" false = .error (.keyError "qqqq") :=
  C8_resolver_behavior.2.2 intervalsFile "qqqq" (by decide) (by decide)

/-! ### Lazy scan engine predicate crash (C3) -/

/-- **C3**: the lazy scan engine cannot deliver predicate pushdown at all: whenever a
predicate is pushed down, the initial materialization succeeds, and the effective row
bound is positive (some row survives the filter, or an explicit positive row limit is
set), `source_generator` raises `AttributeError` — its batch loop calls
`lazynwb.tables._get_path_to_row_indices`, which does not exist — instead of yielding
the filtered, projected rows that an in-memory `get_df(...)` + filter produces. -/
theorem C3_scan_predicate_attribute_error (files : List Container) (table_path : String)
    (initial_columns : List String) (filtered_len : Nat) (n_rows : Option Nat)
    (hok : (get_df files table_path false
      (if initial_columns.isEmpty then none else some initial_columns) none true
      none false false).isOk = true)
    (hpos : 0 < scanRowBound filtered_len n_rows) :
    source_generator files table_path initial_columns filtered_len n_rows
      = .error (.attributeError
          "module lazynwb.tables has no attribute _get_path_to_row_indices") := by
  unfold source_generator
  cases hres : get_df files table_path false
      (if initial_columns.isEmpty then none else some initial_columns) none true
      none false false with
  | error e =>
    rw [hres, isOk_error] at hok
    exact Bool.noConfusion hok
  | ok v => rw [if_pos hpos]

/-- Witness for C3: one source holding the trials table, the predicate referencing
`start_time`, two rows surviving the filter: the scan errors out. -/
theorem C3_scan_predicate_attribute_error_witness :
    source_generator [intervalsFile] "/intervals/trials" ["start_time"] 2 none
      = .error (.attributeError
          "module lazynwb.tables has no attribute _get_path_to_row_indices") :=
  C3_scan_predicate_attribute_error [intervalsFile] "/intervals/trials" ["start_time"]
    2 none (by decide) (by decide)

end LazyNWB
